import Mathlib

/-!
# Verification of the loggly log-shipping client (`src/log.go`)

Shallow embedding of the single Go source file `log.go` of the
`morlockaerospace/loggly` package.  Pure computations (formatting, JSON
marshalling, URL construction) become Lean functions; the effectful parts
(printing, `http.Post`, `os.Exit`, the goroutine dispatch) are made explicit
in result records: an `echoed` field for the line printed to stdout, a
`requestBody`/`shipped` field for the payload handed to the HTTP layer, an
`exitCode` field for `os.Exit`, and a `panicked` flag for a Go runtime panic
(nil-pointer dereference).  Wall-clock sampling (`time.Now()`), which the Go
code formats with layout `2006-01-02T15:04:05.000Z`, is modelled by passing
the formatted timestamp string as an explicit `now` argument.

Go `interface{}` metadata values are modelled by the JSON-representable
values `JsonValue`; `json.Marshal` on such values always succeeds, so the
`err != nil` branches of `json.Marshal` in the source are dead in the model
(noted where relevant).

The mutex-guarded buffer and the racy drain of `flush` are modelled twice:
once functionally (sequential semantics, for the payload/trigger claims) and
once as an interleaving of atomic actions (for the concurrency claim), where
each action is one guarded — or, for the buffer clear in `flush`, unguarded —
access that the source performs.
-/

/-- JSON-representable Go `interface{}` values (what a caller can pass as the
`d`/data argument and what can populate the `Metadata` field). -/
inductive JsonValue where
  | null : JsonValue
  | bool : Bool → JsonValue
  | num : Int → JsonValue
  | str : String → JsonValue
  | arr : List JsonValue → JsonValue
  | obj : List (String × JsonValue) → JsonValue

/-- One hexadecimal digit, lower case (as Go's `encoding/json` emits). -/
def hexDigit (n : Nat) : Char :=
  if n < 10 then Char.ofNat (48 + n) else Char.ofNat (87 + n)

/-- Two-digit lower-case hex rendering of a byte value. -/
def hex2 (n : Nat) : String :=
  String.mk [hexDigit (n / 16), hexDigit (n % 16)]

/-- Escaping of a single character inside a JSON string, following Go's
`encoding/json` (which additionally escapes `<`, `>`, `&` as `\u00XX`). -/
def escapeChar (c : Char) : String :=
  if c = '"' then "\\\""
  else if c = '\\' then "\\\\"
  else if c = '\n' then "\\n"
  else if c = '\r' then "\\r"
  else if c = '\t' then "\\t"
  else if c = '<' then "\\u003c"
  else if c = '>' then "\\u003e"
  else if c = '&' then "\\u0026"
  else if c.toNat < 32 then "\\u00" ++ hex2 c.toNat
  else String.singleton c

/-- Go `encoding/json` rendering of a string value, quotes included. -/
def marshalString (s : String) : String :=
  "\"" ++ String.join (s.toList.map escapeChar) ++ "\""

mutual

/-- Go `encoding/json` rendering of a `JsonValue`.  Object keys are kept in
the order of the association list. -/
def marshalJson : JsonValue → String
  | JsonValue.null => "null"
  | JsonValue.bool b => cond b "true" "false"
  | JsonValue.num n => toString n
  | JsonValue.str s => marshalString s
  | JsonValue.arr xs =>
      "[" ++ String.intercalate "," (marshalJsonList xs) ++ "]"
  | JsonValue.obj kvs =>
      "\x7b" ++ String.intercalate "," (marshalJsonObj kvs) ++ "\x7d"

/-- Renderings of the elements of a JSON array, in order. -/
def marshalJsonList : List JsonValue → List String
  | [] => []
  | x :: xs => marshalJson x :: marshalJsonList xs

/-- Renderings of the `key:value` members of a JSON object, in order. -/
def marshalJsonObj : List (String × JsonValue) → List String
  | [] => []
  | (k, v) :: kvs => (marshalString k ++ ":" ++ marshalJson v) :: marshalJsonObj kvs

end

mutual

/-- Go `fmt` `%+v` rendering of a `JsonValue` (used only for the local echo
line; the source's `%+v` of a `nil`, map, slice or scalar). -/
def goRepr : JsonValue → String
  | JsonValue.null => "<nil>"
  | JsonValue.bool b => cond b "true" "false"
  | JsonValue.num n => toString n
  | JsonValue.str s => s
  | JsonValue.arr xs =>
      "[" ++ String.intercalate " " (goReprList xs) ++ "]"
  | JsonValue.obj kvs =>
      "map[" ++ String.intercalate " " (goReprObj kvs) ++ "]"

/-- `%+v` renderings of the elements of a slice, in order. -/
def goReprList : List JsonValue → List String
  | [] => []
  | x :: xs => goRepr x :: goReprList xs

/-- `%+v` renderings of the `key:value` entries of a map, in order. -/
def goReprObj : List (String × JsonValue) → List String
  | [] => []
  | (k, v) :: kvs => (k ++ ":" ++ goRepr v) :: goReprObj kvs

end

/-- `type Level int` with the five constants 0..4
(DEBUG < INFO < WARN < ERROR < FATAL). -/
abbrev Level := Int

def LogLevelDebug : Level := 0

def LogLevelInfo : Level := 1

def LogLevelWarn : Level := 2

def LogLevelError : Level := 3

def LogLevelFatal : Level := 4

/-- The wire record (`type logMessage struct`), with its JSON field names
`timestamp`, `level`, `message`, `metadata`.  In Go `Metadata` holds an
`interface{}`; every value it ever receives is a `[]interface{}` coming from
the variadic parameter of `newMessage`, modelled as `JsonValue`. -/
structure logMessage where
  Timestamp : String
  Level : String
  Message : String
  Metadata : JsonValue

/-- `json.Marshal` of a `logMessage` (struct tags `timestamp`, `level`,
`message`, `metadata`, in declaration order, as Go emits them). -/
def marshalMessage (m : logMessage) : String :=
  "\x7b\"timestamp\":" ++ marshalString m.Timestamp ++
    ",\"level\":" ++ marshalString m.Level ++
    ",\"message\":" ++ marshalString m.Message ++
    ",\"metadata\":" ++ marshalJson m.Metadata ++ "\x7d"

/-- `type logger struct` (the process-wide singleton's payload).  The
embedded `sync.Mutex` is not a data field here; the locking discipline is
modelled separately by the atomic-action trace model below.
`flushInterval` (a `time.Duration`) is kept in seconds. -/
structure logger where
  token : String
  Level : Level
  url : String
  bulk : Bool
  bufferSize : Nat
  flushIntervalSeconds : Nat
  buffer : List logMessage
  tags : List String
  debugMode : Bool

/-- `tagList()`: `strings.Join(loggerSingleton.tags, ",")`. -/
def tagList (cfg : logger) : String :=
  String.intercalate "," cfg.tags

/-- `SetupLogger`: first-writer-wins initialization of the singleton.  The
state `st` models the global `loggerSingleton` (`none` = `nil`).  When `bulk`
is set the source additionally spawns the `start()` timer goroutine; that
side effect has no bearing on the returned state. -/
def SetupLogger (st : Option logger) (token : String) (level : Level)
    (tags : List String) (bulk : Bool) (debugMode : Bool) : Option logger :=
  match st with
  | some l => some l
  | none =>
    let base : logger :=
      { token := token
        Level := level
        url := ""
        bulk := bulk
        bufferSize := 1000
        flushIntervalSeconds := 10
        buffer := []
        tags := tags
        debugMode := debugMode }
    if bulk then
      some { base with
              url := "https://logs-01.loggly.com/bulk/" ++ token ++ "/tag/" ++ tagList base ++ "/" }
    else
      some { base with
              url := "https://logs-01.loggly.com/inputs/" ++ token ++ "/tag/" ++ tagList base ++ "/" }

/-- The Go panic message raised by dereferencing a nil pointer. -/
def nilPanicMsg : String :=
  "runtime error: invalid memory address or nil pointer dereference"

/-- What one call to `buildAndShipMessage` does, effects made explicit:
the stdout echo line (if any), the record handed to `ship` (if any), and the
`os.Exit` status (if any). -/
structure ShipResult where
  echoed : Option String
  shipped : Option logMessage
  exitCode : Option Nat

/-- `newMessage(timestamp, level, message, data ...interface{})`: the
variadic slice becomes the `Metadata` field, so passing a single `nil` (as
`buildAndShipMessage` does) yields metadata `[null]`. -/
def newMessage (timestamp level message : String) (data : List JsonValue) : logMessage :=
  { Timestamp := timestamp
    Level := level
    Message := message
    Metadata := JsonValue.arr data }

/-- `buildAndShipMessage(output, messageType, exit, d)`.  Reads the global
singleton (`none` = not yet configured, dereferencing panics).  The source's
threshold check is literally `loggerSingleton.Level > LogLevelDebug`: it
compares the configured threshold with the DEBUG constant and never consults
the call's own level (`messageType` is only a string).  The echo line uses
`d`, but the wire record is built via `newMessage(..., nil)`, so the caller's
`d` never reaches the `Metadata` field.  `now` stands for
`time.Now().Format("2006-01-02T15:04:05.000Z")`. -/
def buildAndShipMessage (st : Option logger) (output messageType : String)
    (exitFlag : Bool) (d : Option JsonValue) (now : String) : Except String ShipResult :=
  match st with
  | none => Except.error nilPanicMsg
  | some cfg =>
    if cfg.Level > LogLevelDebug then
      Except.ok { echoed := none, shipped := none, exitCode := none }
    else
      let formattedOutput :=
        match d with
        | none => now ++ " [" ++ messageType ++ "] " ++ output
        | some dv => now ++ " [" ++ messageType ++ "] " ++ output ++ " " ++ goRepr dv
      let message := newMessage now messageType output [JsonValue.null]
      Except.ok
        { echoed := some formattedOutput
          shipped := some message
          exitCode := if exitFlag then some 1 else none }

/-- `Debugd`. -/
def Debugd (st : Option logger) (output : String) (d : Option JsonValue)
    (now : String) : Except String ShipResult :=
  buildAndShipMessage st output "DEBUG" false d now

/-- `Debugln`. -/
def Debugln (st : Option logger) (output : String) (now : String) : Except String ShipResult :=
  Debugd st output none now

/-- `Infod`. -/
def Infod (st : Option logger) (output : String) (d : Option JsonValue)
    (now : String) : Except String ShipResult :=
  buildAndShipMessage st output "INFO" false d now

/-- `Infoln`. -/
def Infoln (st : Option logger) (output : String) (now : String) : Except String ShipResult :=
  Infod st output none now

/-- `Warnd`. -/
def Warnd (st : Option logger) (output : String) (d : Option JsonValue)
    (now : String) : Except String ShipResult :=
  buildAndShipMessage st output "WARN" false d now

/-- `Warnln`. -/
def Warnln (st : Option logger) (output : String) (now : String) : Except String ShipResult :=
  Warnd st output none now

/-- `Errord`. -/
def Errord (st : Option logger) (output : String) (d : Option JsonValue)
    (now : String) : Except String ShipResult :=
  buildAndShipMessage st output "ERROR" false d now

/-- `Errorln`. -/
def Errorln (st : Option logger) (output : String) (now : String) : Except String ShipResult :=
  Errord st output none now

/-- `Fatald`: like the others but with the exit flag set. -/
def Fatald (st : Option logger) (output : String) (d : Option JsonValue)
    (now : String) : Except String ShipResult :=
  buildAndShipMessage st output "FATAL" true d now

/-- `Fatalln`. -/
def Fatalln (st : Option logger) (output : String) (now : String) : Except String ShipResult :=
  Fatald st output none now

/-- `ship(message)` dispatches to the bulk path or the single path on the
configured `bulk` flag (each via `go ...`, i.e. detached). -/
inductive ShipDispatch where
  | bulkPath : ShipDispatch
  | singlePath : ShipDispatch

/-- Which handler `ship` spawns. -/
def ship (cfg : logger) : ShipDispatch :=
  if cfg.bulk then ShipDispatch.bulkPath else ShipDispatch.singlePath

/-- Result of one `http.Post`: either a response with a status code, or a
transport error (`err != nil`, `resp == nil` — no response received). -/
inductive HttpOutcome where
  | response : Nat → HttpOutcome
  | transportError : HttpOutcome

/-- Observable effect of one delivery attempt: the body handed to
`http.Post` (if a request was issued), and whether the function panicked. -/
structure DeliveryResult where
  requestBody : Option String
  panicked : Bool

/-- `handleLogMessage(message)`: marshals (total on `JsonValue` metadata, so
the marshal-error early return is dead in the model), posts, then checks
`err` FIRST and returns before touching `resp` — a transport error is
swallowed; the 403/200 branches only print. -/
def handleLogMessage (m : logMessage) (outcome : HttpOutcome) : DeliveryResult :=
  match outcome with
  | HttpOutcome.transportError => { requestBody := some (marshalMessage m), panicked := false }
  | HttpOutcome.response _ => { requestBody := some (marshalMessage m), panicked := false }

/-- `formatBulkMessage()`: under the guard, folds over the buffer appending
`json.Marshal(m) ++ "\n"` per record (the marshal-error `continue` is dead
in the model). -/
def formatBulkMessage (buf : List logMessage) : String :=
  buf.foldl (fun output m => output ++ (marshalMessage m ++ "\n")) ""

/-- Sequential effect of one `flush()` call on a buffer `buf`, given the
outcome of its `http.Post`.  The source (in order): computes the body with
`formatBulkMessage`, sets `loggerSingleton.buffer = nil` (outside any lock),
posts unconditionally, then dereferences `resp.StatusCode` BEFORE checking
`err` — so a transport error (nil `resp`) is a nil-pointer panic. -/
def flush (buf : List logMessage) (outcome : HttpOutcome) :
    DeliveryResult × List logMessage :=
  let body := formatBulkMessage buf
  match outcome with
  | HttpOutcome.transportError => ({ requestBody := some body, panicked := true }, [])
  | HttpOutcome.response _ => ({ requestBody := some body, panicked := false }, [])

/-- `handleBulkLogMessage(message)` on a buffer: append under the guard,
read the resulting length, and trigger `go flush()` iff that length reached
`bufferSize`.  Returns the new buffer and whether a flush was triggered. -/
def handleBulkLogMessage (bufferSize : Nat) (buf : List logMessage)
    (m : logMessage) : List logMessage × Bool :=
  let buf2 := buf ++ [m]
  (buf2, decide (bufferSize ≤ buf2.length))

/-- Sequence of `handleBulkLogMessage` calls (one per record, in call
order), with no drain interleaved: the final buffer and the number of
size-triggered flush attempts. -/
def appendAll (bufferSize : Nat) (buf : List logMessage) :
    List logMessage → List logMessage × Nat
  | [] => (buf, 0)
  | m :: rest =>
    let r := handleBulkLogMessage bufferSize buf m
    let r2 := appendAll bufferSize r.1 rest
    (r2.1, (cond r.2 1 0) + r2.2)

/-! ## Atomic-action trace model of the buffer (concurrency discipline)

Each constructor is one indivisible access to the shared buffer exactly as
the source performs it:
`append` is the guarded `buffer = append(buffer, message)` of
`handleBulkLogMessage`; `snap` is the guarded read of the whole buffer by
`formatBulkMessage`; `clear` is the UNGUARDED `loggerSingleton.buffer = nil`
that `flush` executes after `formatBulkMessage` returns, i.e. as a separate
step during which other goroutines may run.  A drain as written in `flush`
is therefore the two-action sequence `snap`, `clear` with arbitrary actions
interleaved between them. -/

/-- One atomic access to the shared buffer. -/
inductive BufAct where
  | append : logMessage → BufAct
  | snap : BufAct
  | clear : BufAct

/-- Shared state: the live buffer plus the last snapshot taken (what
`formatBulkMessage` rendered). -/
structure BufState where
  buffer : List logMessage
  snapshot : Option (List logMessage)

/-- Initial state: empty buffer (`nil`), no snapshot yet. -/
def initBufState : BufState :=
  { buffer := [], snapshot := none }

/-- Effect of one atomic buffer access. -/
def bufStep (s : BufState) : BufAct → BufState
  | BufAct.append m => { s with buffer := s.buffer ++ [m] }
  | BufAct.snap => { s with snapshot := some s.buffer }
  | BufAct.clear => { s with buffer := [] }

/-- Run a whole interleaving (trace) of atomic buffer accesses. -/
def runBuf (s : BufState) (tr : List BufAct) : BufState :=
  tr.foldl bufStep s

/-- The trace of one `flush`-drain racing with appenders: `pre` appends land
before the guarded snapshot, `mid` appends land between the snapshot and the
unguarded clear. -/
def drainInterleaving (pre mid : List logMessage) : List BufAct :=
  pre.map BufAct.append ++ [BufAct.snap] ++ mid.map BufAct.append ++ [BufAct.clear]

/-- Number of records appended by a trace. -/
def appendedCount (tr : List BufAct) : Nat :=
  tr.countP (fun a => match a with | BufAct.append _ => true | _ => false)

/-- Size of the last snapshot (0 when none was taken). -/
def snapshotLen (s : BufState) : Nat :=
  (s.snapshot.getD []).length

/-- Records conserved by a trace from the empty buffer: every appended
record ends up either in the drained snapshot or still in the buffer
(nothing lost, nothing duplicated), counted. -/
def conserved (tr : List BufAct) : Prop :=
  snapshotLen (runBuf initBufState tr) + (runBuf initBufState tr).buffer.length =
    appendedCount tr

/-! ## Fixtures and accessors -/

/-- A fixed formatted timestamp (stands for one `time.Now()` sample). -/
def ts0 : String := "2026-01-01T00:00:00.000Z"

/-- Sample wire record "a" (shaped exactly as `buildAndShipMessage` builds
records: metadata `[null]`). -/
def mA : logMessage :=
  { Timestamp := ts0, Level := "INFO", Message := "a", Metadata := JsonValue.arr [JsonValue.null] }

/-- Sample wire record "b". -/
def mB : logMessage :=
  { Timestamp := ts0, Level := "INFO", Message := "b", Metadata := JsonValue.arr [JsonValue.null] }

/-- Sample wire record "c". -/
def mC : logMessage :=
  { Timestamp := ts0, Level := "INFO", Message := "c", Metadata := JsonValue.arr [JsonValue.null] }

/-- The record a leveled call handed to `ship`, if any. -/
def shippedOf : Except String ShipResult → Option logMessage
  | Except.ok r => r.shipped
  | Except.error _ => none

/-- The stdout echo line of a leveled call, if any. -/
def echoedOf : Except String ShipResult → Option String
  | Except.ok r => r.echoed
  | Except.error _ => none

/-- The `os.Exit` status of a leveled call, if any. -/
def exitCodeOf : Except String ShipResult → Option Nat
  | Except.ok r => r.exitCode
  | Except.error _ => none

/-- Stated from the spec's words (for the refinement claim about the batch
payload): one JSON object per record, newline-delimited, in insertion
order. -/
def bulkPayloadSpec : List logMessage → String
  | [] => ""
  | m :: rest => marshalMessage m ++ "\n" ++ bulkPayloadSpec rest

/-! ## Helper lemmas -/

/-- Unfolding of the bulk-append step's trigger count. -/
theorem appendAll_snd_cons (bs : Nat) (buf : List logMessage) (m : logMessage)
    (rest : List logMessage) :
    (appendAll bs buf (m :: rest)).2 =
      (cond (decide (bs ≤ (buf ++ [m]).length)) 1 0) + (appendAll bs (buf ++ [m]) rest).2 :=
  rfl

/-- Folding the bulk formatter from an arbitrary accumulator. -/
theorem formatBulk_foldl (buf : List logMessage) :
    ∀ s : String,
      buf.foldl (fun output m => output ++ (marshalMessage m ++ "\n")) s =
        s ++ bulkPayloadSpec buf := by
  induction buf with
  | nil => intro s; simp [bulkPayloadSpec, String.append_empty]
  | cons m rest ih =>
    intro s
    simp only [List.foldl_cons, bulkPayloadSpec]
    rw [ih, String.append_assoc]

/-- `formatBulkMessage` produces exactly the spec's payload: one JSON object
per record, newline-delimited, in buffer order. -/
theorem formatBulkMessage_join (buf : List logMessage) :
    formatBulkMessage buf = bulkPayloadSpec buf := by
  have h := formatBulk_foldl buf ""
  simpa [formatBulkMessage, String.empty_append] using h

/-- The buffer after a run of appends (no drain) is the old buffer followed
by the new records in call order. -/
theorem appendAll_fst (bufferSize : Nat) (msgs : List logMessage) :
    ∀ buf : List logMessage, (appendAll bufferSize buf msgs).1 = buf ++ msgs := by
  induction msgs with
  | nil => intro buf; simp [appendAll]
  | cons m rest ih =>
    intro buf
    simp [appendAll, handleBulkLogMessage, ih, List.append_assoc]

/-- No size trigger fires while the running length stays below the
capacity. -/
theorem appendAll_snd_zero (bufferSize : Nat) (msgs : List logMessage) :
    ∀ buf : List logMessage, buf.length + msgs.length < bufferSize →
      (appendAll bufferSize buf msgs).2 = 0 := by
  induction msgs with
  | nil => intro buf _; rfl
  | cons m rest ih =>
    intro buf h
    simp only [List.length_cons] at h
    rw [appendAll_snd_cons]
    have hno : decide (bufferSize ≤ (buf ++ [m]).length) = false := by
      simp only [List.length_append, List.length_cons, List.length_nil,
        decide_eq_false_iff_not, not_le]
      omega
    have h1 : (buf ++ [m]).length + rest.length < bufferSize := by
      simp only [List.length_append, List.length_cons, List.length_nil]
      omega
    rw [hno, ih _ h1]
    rfl

/-- Exactly one size trigger fires when the appends make the length reach
the capacity exactly at the last append. -/
theorem appendAll_snd_one (bufferSize : Nat) (msgs : List logMessage) :
    ∀ buf : List logMessage, msgs ≠ [] →
      buf.length + msgs.length = bufferSize → buf.length < bufferSize →
      (appendAll bufferSize buf msgs).2 = 1 := by
  induction msgs with
  | nil => intro buf hne _ _; exact absurd rfl hne
  | cons m rest ih =>
    intro buf _ hsum hlt
    simp only [List.length_cons] at hsum
    rw [appendAll_snd_cons]
    cases rest with
    | nil =>
      simp only [List.length_nil] at hsum
      have hyes : decide (bufferSize ≤ (buf ++ [m]).length) = true := by
        simp only [List.length_append, List.length_cons, List.length_nil,
          decide_eq_true_eq]
        omega
      rw [hyes]
      rfl
    | cons m2 rest2 =>
      simp only [List.length_cons] at hsum
      have hno : decide (bufferSize ≤ (buf ++ [m]).length) = false := by
        simp only [List.length_append, List.length_cons, List.length_nil,
          decide_eq_false_iff_not, not_le]
        omega
      have h1 : (buf ++ [m]).length + (m2 :: rest2).length = bufferSize := by
        simp only [List.length_append, List.length_cons, List.length_nil]
        omega
      have h2 : (buf ++ [m]).length < bufferSize := by
        simp only [List.length_append, List.length_cons, List.length_nil]
        omega
      rw [hno, ih _ (List.cons_ne_nil m2 rest2) h1 h2]
      rfl

/-- Running a block of appends moves the records into the buffer and leaves
the snapshot alone. -/
theorem runBuf_appends (l : List logMessage) :
    ∀ s : BufState, runBuf s (l.map BufAct.append) =
      { buffer := s.buffer ++ l, snapshot := s.snapshot } := by
  induction l with
  | nil => intro s; simp [runBuf]
  | cons m rest ih =>
    intro s
    simp only [List.map_cons]
    show runBuf (bufStep s (BufAct.append m)) (rest.map BufAct.append) = _
    rw [ih]
    simp [bufStep, List.append_assoc]

/-- `runBuf` splits over trace concatenation. -/
theorem runBuf_append_trace (s : BufState) (t1 t2 : List BufAct) :
    runBuf s (t1 ++ t2) = runBuf (runBuf s t1) t2 := by
  simp [runBuf, List.foldl_append]

/-- A block of append actions counts as one append per record. -/
theorem countP_isAppend_map (l : List logMessage) :
    (l.map BufAct.append).countP
        (fun a => match a with | BufAct.append _ => true | _ => false) = l.length := by
  induction l with
  | nil => rfl
  | cons m rest ih => simp [List.countP_cons, ih]

/-- Variant of `countP_isAppend_map` in the composed form that
`List.countP_map` produces. -/
theorem countP_isAppend_comp (l : List logMessage) :
    l.countP ((fun a => match a with | BufAct.append _ => true | _ => false) ∘ BufAct.append) =
      l.length := by
  induction l with
  | nil => rfl
  | cons m rest ih => simp [List.countP_cons, ih, Function.comp]

/-! ## Claim theorems -/

/-- **C1** (code bug): the claim says an event is echoed and shipped iff the
call's level L is ≥ the configured threshold T.  The source's check is
`loggerSingleton.Level > LogLevelDebug`, which never consults the call's
level: with threshold INFO, a WARN call (WARN ≥ INFO, so the claim requires
echo + ship) is dropped entirely, and even a FATAL call at threshold FATAL
(FATAL ≥ FATAL) is dropped; only threshold DEBUG lets anything through. -/
theorem c1_threshold_check_ignores_call_level :
    Warnd (SetupLogger none "abc" LogLevelInfo ["svc"] false true) "disk low" none ts0 =
      Except.ok { echoed := none, shipped := none, exitCode := none } ∧
    Fatald (SetupLogger none "abc" LogLevelFatal ["svc"] false true) "boom" none ts0 =
      Except.ok { echoed := none, shipped := none, exitCode := none } ∧
    echoedOf (Warnd (SetupLogger none "abc" LogLevelDebug ["svc"] false true) "disk low" none ts0) =
      some (ts0 ++ " [WARN] disk low") :=
  ⟨rfl, rfl, rfl⟩

/-- **C2** (code bug): the claim says the shipped record's metadata carries
the caller's raw `data` argument (or null when absent).  The source builds
the wire record with `newMessage(..., nil)`, discarding `d`: with
`d = obj [("k", str "v")]` the shipped metadata is the one-element array
`[null]` — neither the caller's value nor null. -/
theorem c2_metadata_never_carries_caller_data :
    shippedOf (Infod (SetupLogger none "abc" LogLevelDebug ["svc"] false true) "m"
        (some (JsonValue.obj [("k", JsonValue.str "v")])) ts0) =
      some { Timestamp := ts0, Level := "INFO", Message := "m",
             Metadata := JsonValue.arr [JsonValue.null] } ∧
    JsonValue.arr [JsonValue.null] ≠ JsonValue.obj [("k", JsonValue.str "v")] ∧
    JsonValue.arr [JsonValue.null] ≠ JsonValue.null :=
  ⟨rfl, fun h => JsonValue.noConfusion h, fun h => JsonValue.noConfusion h⟩

/-- **C3** (code bug): the claim says every fatal-level call terminates the
process with exit status 1 unconditionally.  Because the threshold check
returns early whenever the configured level exceeds DEBUG, a `Fatald` call
at threshold INFO returns without calling `os.Exit` at all; the exit only
happens when the threshold check passes (threshold ≤ DEBUG). -/
theorem c3_fatal_exit_skipped_when_threshold_above_debug :
    Fatald (SetupLogger none "abc" LogLevelInfo ["svc"] false true) "boom" none ts0 =
      Except.ok { echoed := none, shipped := none, exitCode := none } ∧
    exitCodeOf (Fatald (SetupLogger none "abc" LogLevelDebug ["svc"] false true) "boom" none ts0) =
      some 1 :=
  ⟨rfl, rfl⟩

/-- **C4** (code bug): the claim says a transport error is swallowed on every
delivery path.  The single path (`handleLogMessage`) checks `err` before
touching `resp` and indeed returns normally; the bulk path (`flush`)
dereferences `resp.StatusCode` before its `err != nil` check, so a transport
error (nil response) is a nil-pointer panic, for every buffer contents. -/
theorem c4_transport_error_single_ok_bulk_panics :
    (∀ (m : logMessage) (o : HttpOutcome), (handleLogMessage m o).panicked = false) ∧
    (∀ buf : List logMessage, (flush buf HttpOutcome.transportError).1.panicked = true) :=
  ⟨fun m o => by cases o <;> rfl, fun buf => rfl⟩

/-- **C5** (counterexample): the claim says an empty drain issues no network
call.  `flush` has no emptiness check: with an empty buffer it still hands a
(empty) body to `http.Post`. -/
theorem c5_empty_drain_still_posts :
    (flush [] (HttpOutcome.response 200)).1.requestBody = some "" :=
  rfl

/-- **C5** (amended): every flush cycle issues exactly one HTTP request
whose body is the formatted buffer contents, whether or not the drained
snapshot is empty; an empty drain posts a request with an empty body. -/
theorem c5_flush_posts_unconditionally (buf : List logMessage) (o : HttpOutcome) :
    (flush buf o).1.requestBody = some (formatBulkMessage buf) := by
  cases o <;> rfl

/-- **C6** (counterexample): the claim says snapshot-and-clear is one guarded
atomic step, so no record appended concurrently with a drain is lost.  In
the source the clear (`loggerSingleton.buffer = nil`) is a separate,
unguarded action after `formatBulkMessage` returns: in the interleaving
where record `mB` is appended between the guarded snapshot and the clear,
`mB` is in neither the snapshot nor the remaining buffer — it is lost, and
the conservation count fails. -/
theorem c6_drain_races_lose_appends :
    ¬ conserved (drainInterleaving [mA] [mB]) := by
  unfold conserved
  decide

/-- **C6** (amended): the snapshot is taken under the guard, but the buffer
is cleared in a separate unguarded step; only when no append interleaves
between the snapshot and the clear does the drain behave atomically: the
snapshot then holds exactly the records appended before it, the buffer ends
with exactly the records appended after the clear, and every appended record
is accounted for (nothing lost or duplicated). -/
theorem c6_unraced_drain_conserves (pre post : List logMessage) :
    runBuf initBufState (drainInterleaving pre [] ++ post.map BufAct.append) =
      { buffer := post, snapshot := some pre } ∧
    conserved (drainInterleaving pre [] ++ post.map BufAct.append) := by
  have h1 : drainInterleaving pre [] ++ post.map BufAct.append =
      pre.map BufAct.append ++ ([BufAct.snap] ++ ([BufAct.clear] ++ post.map BufAct.append)) := by
    simp [drainInterleaving]
  have hrun : runBuf initBufState (drainInterleaving pre [] ++ post.map BufAct.append) =
      { buffer := post, snapshot := some pre } := by
    rw [h1, runBuf_append_trace, runBuf_appends, runBuf_append_trace, runBuf_append_trace,
      runBuf_appends]
    simp [runBuf, bufStep, initBufState]
  refine ⟨hrun, ?_⟩
  have hcount : appendedCount (drainInterleaving pre [] ++ post.map BufAct.append) =
      pre.length + post.length := by
    simp [drainInterleaving, appendedCount, List.countP_append, List.countP_cons,
      countP_isAppend_map, countP_isAppend_comp]
  unfold conserved
  rw [hrun, hcount]
  simp [snapshotLen]

/-- **C7** (confirmed): starting from an empty buffer, appending exactly
`bufferSize` records triggers exactly one size-triggered flush attempt (the
trigger fires when the length returned by the append reaches the capacity),
and appending `bufferSize - 1` records triggers none. -/
theorem c7_size_triggered_flush (bufferSize : Nat) (msgs msgsFew : List logMessage)
    (hcap : 1 ≤ bufferSize) (hlen : msgs.length = bufferSize)
    (hfew : msgsFew.length = bufferSize - 1) :
    (appendAll bufferSize [] msgs).2 = 1 ∧ (appendAll bufferSize [] msgsFew).2 = 0 := by
  constructor
  · apply appendAll_snd_one
    · intro h
      rw [h] at hlen
      simp only [List.length_nil] at hlen
      omega
    · simpa using hlen
    · simpa using hcap
  · apply appendAll_snd_zero
    simp only [List.length_nil, Nat.zero_add, hfew]
    omega

/-- Witness for C7: capacity 3, three concrete appends trigger once, two
trigger none. -/
theorem c7_size_triggered_flush_witness :
    (1 ≤ 3 ∧ ([mA, mB, mC] : List logMessage).length = 3 ∧
      ([mA, mB] : List logMessage).length = 3 - 1) ∧
    ((appendAll 3 [] [mA, mB, mC]).2 = 1 ∧ (appendAll 3 [] [mA, mB]).2 = 0) :=
  ⟨⟨by decide, rfl, rfl⟩,
    c7_size_triggered_flush 3 [mA, mB, mC] [mA, mB] (by decide) rfl rfl⟩

/-- **C8** (confirmed): `SetupLogger` is first-writer-wins — a second call,
with arbitrarily different arguments, returns the state of the first call
unchanged; in particular the retained token and endpoint URL are the ones
derived from the first call's token and tags. -/
theorem c8_setup_first_writer_wins (t1 t2 : String) (l1 l2 : Level)
    (tg1 tg2 : List String) (b1 b2 d1 d2 : Bool) :
    SetupLogger (SetupLogger none t1 l1 tg1 b1 d1) t2 l2 tg2 b2 d2 =
      SetupLogger none t1 l1 tg1 b1 d1 ∧
    (SetupLogger (SetupLogger none t1 l1 tg1 b1 d1) t2 l2 tg2 b2 d2).map logger.token =
      some t1 ∧
    (SetupLogger (SetupLogger none t1 l1 tg1 b1 d1) t2 l2 tg2 b2 d2).map logger.url =
      some (if b1 then
              "https://logs-01.loggly.com/bulk/" ++ t1 ++ "/tag/" ++
                String.intercalate "," tg1 ++ "/"
            else
              "https://logs-01.loggly.com/inputs/" ++ t1 ++ "/tag/" ++
                String.intercalate "," tg1 ++ "/") := by
  cases b1 <;> simp [SetupLogger, tagList]

/-- **C9** (confirmed): for every sequence of appended records, the batch
payload a flush cycle renders from the resulting buffer is one JSON object
per record, newline-delimited, in the records' insertion (call) order —
`formatBulkMessage` over the appended buffer equals the spec-side payload
`bulkPayloadSpec`. -/
theorem c9_batch_payload_in_insertion_order (bufferSize : Nat) (msgs : List logMessage) :
    formatBulkMessage (appendAll bufferSize [] msgs).1 = bulkPayloadSpec msgs := by
  rw [appendAll_fst]
  simp [formatBulkMessage_join]

/-- **C10** (confirmed): calling any leveled entry point (any variant)
before `SetupLogger` dereferences the nil `loggerSingleton`
(`loggerSingleton.Level` in `buildAndShipMessage`) and panics — prior
configuration is a precondition of every public log function. -/
theorem c10_log_before_setup_panics (output : String) (d : Option JsonValue) (now : String) :
    Debugd none output d now = Except.error nilPanicMsg ∧
    Infod none output d now = Except.error nilPanicMsg ∧
    Warnd none output d now = Except.error nilPanicMsg ∧
    Errord none output d now = Except.error nilPanicMsg ∧
    Fatald none output d now = Except.error nilPanicMsg ∧
    Debugln none output now = Except.error nilPanicMsg ∧
    Infoln none output now = Except.error nilPanicMsg ∧
    Warnln none output now = Except.error nilPanicMsg ∧
    Errorln none output now = Except.error nilPanicMsg ∧
    Fatalln none output now = Except.error nilPanicMsg :=
  ⟨rfl, rfl, rfl, rfl, rfl, rfl, rfl, rfl, rfl, rfl⟩
